import Mathlib

/-!
Verification development for the sitemap crawler (`sitemap_crawler.py`,
configured by `settings.py`).

The program is shallowly embedded:

* Python strings are `List Char` (`PyStr`); the stdlib string helpers the
  source uses (`str.strip`, `str.lower`, substring test, `str(n)`, ...) are
  modelled character by character.
* `urllib.parse.urlparse` / `urljoin`, used by `sanitize_filename` and by the
  sitemap-index resolution, are modelled after CPython `Lib/urllib/parse.py`;
  the `ValueError` raised for an authority with an unmatched square bracket is
  an `Except.error`.  (The NFKC netloc check and the newest bracketed-host
  validation, which no claim touches, are not modelled.)
* The network, the XML parser and the browser session are external
  collaborators: they enter as environment data (a finite association list
  mapping sitemap URLs to fetch/parse outcomes; a per-URL navigation/log
  outcome record).
* Side effects (files written, the browser quit call) are event traces.
-/

namespace Crawler

/-- Python strings, modelled as lists of characters. -/
abbrev PyStr := List Char

/-- Convert a Lean string literal into a `PyStr`. -/
def pys (s : String) : PyStr := s.toList

/-- Decidable equality for the `Except` values the model produces, so that
concrete runs can be checked by `decide`. -/
instance exceptDecEq {ε α : Type} [DecidableEq ε] [DecidableEq α] :
    DecidableEq (Except ε α) := fun a b =>
  match a, b with
  | .error x, .error y =>
    if h : x = y then isTrue (by rw [h])
    else isFalse (by intro hh; cases hh; exact h rfl)
  | .ok x, .ok y =>
    if h : x = y then isTrue (by rw [h])
    else isFalse (by intro hh; cases hh; exact h rfl)
  | .error _, .ok _ => isFalse (fun hh => Except.noConfusion hh)
  | .ok _, .error _ => isFalse (fun hh => Except.noConfusion hh)

/-- Python `str.lower` (ASCII fidelity; the source lowercases only filter
strings and log messages, for a case-insensitive comparison). -/
def pyLower (s : PyStr) : PyStr := s.map Char.toLower

/-- Python `str.upper` (used by `sanitize_filename` for the reserved-name
test). -/
def pyUpper (s : PyStr) : PyStr := s.map Char.toUpper

/-- The characters removed by Python `str.strip()` with no argument (ASCII
whitespace; exotic Unicode spaces are not modelled). -/
def pySpace (c : Char) : Bool :=
  c = ' ' || c = '\t' || c = '\n' || c = '\r' || c = '\x0b' || c = '\x0c'

/-- Python `s.strip(chars)`: drop characters satisfying `p` from both ends. -/
def stripWith (p : Char → Bool) (s : PyStr) : PyStr :=
  ((s.dropWhile p).reverse.dropWhile p).reverse

/-- Python `str.strip()` as applied to extracted sitemap `loc` texts. -/
def pyStrip (s : PyStr) : PyStr := stripWith pySpace s

/-- Python `needle in haystack` on strings: contiguous substring test. -/
def pyContains (haystack needle : PyStr) : Bool :=
  (List.range (haystack.length + 1)).any (fun i => needle.isPrefixOf (haystack.drop i))

/-- Python `s.startswith(p)`. -/
def pyStartsWith (s p : PyStr) : Bool := p.isPrefixOf s

/-- Python `s.split(c, 1)`: split at the first occurrence of `c`, when there
is one. -/
def splitFirst (c : Char) : PyStr → Option (PyStr × PyStr)
  | [] => none
  | a :: rest =>
    if a = c then some ([], rest)
    else
      match splitFirst c rest with
      | none => none
      | some (l, r) => some (a :: l, r)

/-- Python `s.split(c)`: full split, always at least one piece. -/
def splitOn (c : Char) : PyStr → List PyStr
  | [] => [[]]
  | a :: rest =>
    let r := splitOn c rest
    if a = c then [] :: r
    else
      match r with
      | [] => [[a]]
      | h :: t => (a :: h) :: t

/-- Python `sep.join(parts)` for a one-character separator. -/
def joinWith (sep : Char) : List PyStr → PyStr
  | [] => []
  | [p] => p
  | p :: rest => p ++ sep :: joinWith sep rest

/-- Python `s.find(c, start)`: index of the first occurrence of `c` at or
after `start`, when there is one. -/
def findFrom (s : PyStr) (c : Char) (start : Nat) : Option Nat :=
  match (s.drop start).findIdx? (fun a => a = c) with
  | none => none
  | some i => some (start + i)

/-- Python `s.rfind(c)`: index of the last occurrence of `c`. -/
def rfindChar (s : PyStr) (c : Char) : Option Nat :=
  match s.reverse.findIdx? (fun a => a = c) with
  | none => none
  | some i => some (s.length - 1 - i)

/-- Python `s.rfind(c, 0, bound)`: index of the last occurrence of `c` in
`s.take bound`. -/
def rfindIn (s : PyStr) (c : Char) (bound : Nat) : Option Nat :=
  match (s.take bound).reverse.findIdx? (fun a => a = c) with
  | none => none
  | some i => some ((s.take bound).length - 1 - i)

/-- Fuel-driven decimal digits of a natural number, structurally recursive so
that the kernel can evaluate it. -/
def natToDecAux : Nat → Nat → PyStr
  | 0, _ => []
  | fuel + 1, n =>
    if n < 10 then [Nat.digitChar n]
    else natToDecAux fuel (n / 10) ++ [Nat.digitChar (n % 10)]

/-- Python `str(n)` for a natural number (`n + 1` units of fuel always
suffice, since the digit count of `n` is at most `n + 1`). -/
def natToDec (n : Nat) : PyStr := natToDecAux (n + 1) n

/-- Stand-in for CPython's salted string hash as it occurs in
`f"sanitized_url_{abs(hash(url))}"`: the source relies only on
`abs(hash(url))` being a bounded non-negative integer determined by the whole
URL string, which is exactly what this model provides (the CPython value also
depends on the per-process hash seed). -/
def pyHash (s : PyStr) : Nat :=
  s.foldl (fun h c => (h * 1000003 + c.toNat) % (10 ^ 18)) 5381

/-! ## The model of `urllib.parse` (CPython `Lib/urllib/parse.py`) -/

/-- Result of CPython `urllib.parse.urlsplit`. -/
structure SplitResult where
  scheme : PyStr
  netloc : PyStr
  path : PyStr
  query : PyStr
  fragment : PyStr
deriving DecidableEq

/-- Result of CPython `urllib.parse.urlparse` (`urlsplit` plus the `params`
component split off the last path segment). -/
structure ParseResult where
  scheme : PyStr
  netloc : PyStr
  path : PyStr
  params : PyStr
  query : PyStr
  fragment : PyStr
deriving DecidableEq

/-- CPython `urllib.parse.scheme_chars`. -/
def schemeChar (c : Char) : Bool :=
  c.isAlpha || c.isDigit || c = '+' || c = '-' || c = '.'

/-- Leading characters stripped from a URL by CPython `urlsplit`
(`_WHATWG_C0_CONTROL_OR_SPACE`). -/
def c0OrSpace (c : Char) : Bool := c.toNat ≤ 0x20

/-- Characters removed everywhere in a URL by CPython `urlsplit`
(`_UNSAFE_URL_BYTES_TO_REMOVE`: tab, CR, LF). -/
def tabCrLf (c : Char) : Bool := c = '\t' || c = '\r' || c = '\n'

/-- CPython `_splitnetloc`: the authority extends to the first `/`, `?` or
`#`. -/
def netlocEnd (c : Char) : Bool := c = '/' || c = '?' || c = '#'

/-- CPython `urllib.parse.urlsplit`: strip leading C0-control/space, remove
tab/CR/LF, recognise a scheme when the text before the first colon starts
with an ASCII letter and consists of scheme characters, take the authority
after `//` up to the first `/`, `?` or `#` (raising `ValueError` — the
`Except.error` case — when it contains an unmatched square bracket), then
split off the fragment and the query. -/
def urlsplit (url0 : PyStr) (dfltScheme : PyStr) : Except Unit SplitResult :=
  let url1 := (url0.dropWhile c0OrSpace).filter (fun c => !tabCrLf c)
  let sch0 := (stripWith c0OrSpace dfltScheme).filter (fun c => !tabCrLf c)
  let schemeSplit :=
    match splitFirst ':' url1 with
    | none => (sch0, url1)
    | some (before, after) =>
      if before ≠ [] &&
          (match before.head? with
           | some b => b.isAlpha
           | none => false) &&
          before.all schemeChar then
        (pyLower before, after)
      else (sch0, url1)
  let scheme := schemeSplit.1
  let rest := schemeSplit.2
  if rest.take 2 = pys "//" then
    let netloc := (rest.drop 2).takeWhile (fun c => !netlocEnd c)
    let rest2 := (rest.drop 2).dropWhile (fun c => !netlocEnd c)
    if ('[' ∈ netloc && ']' ∉ netloc) || (']' ∈ netloc && '[' ∉ netloc) then
      .error ()
    else
      let fragSplit :=
        match splitFirst '#' rest2 with
        | none => (rest2, ([] : PyStr))
        | some (a, b) => (a, b)
      let querySplit :=
        match splitFirst '?' fragSplit.1 with
        | none => (fragSplit.1, ([] : PyStr))
        | some (a, b) => (a, b)
      .ok ⟨scheme, netloc, querySplit.1, querySplit.2, fragSplit.2⟩
  else
    let fragSplit :=
      match splitFirst '#' rest with
      | none => (rest, ([] : PyStr))
      | some (a, b) => (a, b)
    let querySplit :=
      match splitFirst '?' fragSplit.1 with
      | none => (fragSplit.1, ([] : PyStr))
      | some (a, b) => (a, b)
    .ok ⟨scheme, [], querySplit.1, querySplit.2, fragSplit.2⟩

/-- CPython `uses_params` (schemes whose last path segment may carry
parameters). -/
def usesParams : List PyStr :=
  [pys "", pys "ftp", pys "hdl", pys "prospero", pys "http", pys "imap",
   pys "https", pys "shttp", pys "rtsp", pys "rtspu", pys "sip", pys "sips",
   pys "mms", pys "sftp", pys "tel"]

/-- CPython `_splitparams`. -/
def splitParams (url : PyStr) : PyStr × PyStr :=
  let i? :=
    if '/' ∈ url then
      match rfindChar url '/' with
      | some j => findFrom url ';' j
      | none => none
    else findFrom url ';' 0
  match i? with
  | none => (url, [])
  | some i => (url.take i, url.drop (i + 1))

/-- CPython `urllib.parse.urlparse`. -/
def urlparse (url : PyStr) (dfltScheme : PyStr) : Except Unit ParseResult :=
  match urlsplit url dfltScheme with
  | .error e => .error e
  | .ok r =>
    if r.scheme ∈ usesParams && ';' ∈ r.path then
      let p := splitParams r.path
      .ok ⟨r.scheme, r.netloc, p.1, p.2, r.query, r.fragment⟩
    else .ok ⟨r.scheme, r.netloc, r.path, [], r.query, r.fragment⟩

/-- CPython `urlunsplit`. -/
def urlunsplit (scheme netloc url query fragment : PyStr) : PyStr :=
  let url1 :=
    if netloc ≠ [] || (url ≠ [] && url.take 2 = pys "//") then
      let u := if url ≠ [] && url.take 1 ≠ pys "/" then '/' :: url else url
      pys "//" ++ netloc ++ u
    else url
  let url2 := if scheme ≠ [] then scheme ++ ':' :: url1 else url1
  let url3 := if query ≠ [] then url2 ++ '?' :: query else url2
  if fragment ≠ [] then url3 ++ '#' :: fragment else url3

/-- CPython `urlunparse`. -/
def urlunparse (scheme netloc url params query fragment : PyStr) : PyStr :=
  let u := if params ≠ [] then url ++ ';' :: params else url
  urlunsplit scheme netloc u query fragment

/-- CPython `uses_relative`. -/
def usesRelative : List PyStr :=
  [pys "", pys "ftp", pys "http", pys "gopher", pys "nntp", pys "imap",
   pys "wais", pys "file", pys "https", pys "shttp", pys "mms",
   pys "prospero", pys "rtsp", pys "rtspu", pys "sftp", pys "svn",
   pys "svn+ssh", pys "ws", pys "wss"]

/-- CPython `uses_netloc`. -/
def usesNetloc : List PyStr :=
  [pys "", pys "ftp", pys "http", pys "gopher", pys "nntp", pys "telnet",
   pys "imap", pys "wais", pys "file", pys "mms", pys "https", pys "shttp",
   pys "snews", pys "prospero", pys "rtsp", pys "rtspu", pys "rsync",
   pys "svn", pys "svn+ssh", pys "sftp", pys "nfs", pys "git",
   pys "git+ssh", pys "ws", pys "wss", pys "itms-services"]

/-- The slice assignment `segments[1:-1] = filter(None, segments[1:-1])` of
CPython `urljoin`: keep the first and last element, drop empty middle
segments. -/
def filterMiddle : List PyStr → List PyStr
  | [] => []
  | [a] => [a]
  | a :: rest =>
    match rest.getLast? with
    | none => [a]
    | some last => a :: (rest.dropLast.filter (fun s => s ≠ [])) ++ [last]

/-- The `.`/`..` resolution loop of CPython `urljoin` (`pop` on an empty
list is a no-op, matching the `except IndexError: pass`). -/
def resolveDots (segments : List PyStr) : List PyStr :=
  segments.foldl
    (fun acc seg =>
      if seg = pys ".." then acc.dropLast
      else if seg = pys "." then acc
      else acc ++ [seg])
    []

/-- CPython `urllib.parse.urljoin` (the RFC 3986 merge as CPython implements
it).  It raises — returns `Except.error` — exactly when one of its two
`urlparse` calls does. -/
def urljoin (base url : PyStr) : Except Unit PyStr :=
  if base = [] then .ok url
  else if url = [] then .ok base
  else
    match urlparse base [] with
    | .error e => .error e
    | .ok b =>
      match urlparse url b.scheme with
      | .error e => .error e
      | .ok r =>
        if r.scheme ≠ b.scheme || ¬(r.scheme ∈ usesRelative) then .ok url
        else if r.scheme ∈ usesNetloc && r.netloc ≠ [] then
          .ok (urlunparse r.scheme r.netloc r.path r.params r.query r.fragment)
        else
          let netloc := if r.scheme ∈ usesNetloc then b.netloc else r.netloc
          if r.path = [] && r.params = [] then
            let query := if r.query = [] then b.query else r.query
            .ok (urlunparse r.scheme netloc b.path b.params query r.fragment)
          else
            let baseParts0 := splitOn '/' b.path
            let baseParts :=
              if baseParts0.getLast? = some [] then baseParts0
              else baseParts0.dropLast
            let segments :=
              if r.path.take 1 = pys "/" then splitOn '/' r.path
              else filterMiddle (baseParts ++ splitOn '/' r.path)
            let resolved0 := resolveDots segments
            let resolved :=
              if segments.getLast? = some (pys ".") ||
                  segments.getLast? = some (pys "..") then
                resolved0 ++ [[]]
              else resolved0
            let joined := joinWith '/' resolved
            let path := if joined = [] then pys "/" else joined
            .ok (urlunparse r.scheme netloc path r.params r.query r.fragment)

/-! ## The model of `sanitize_filename` -/

/-- The character class of the substitution
`re.sub(r'[\\/*?:"<>|\x00-\x1f]', '_', path)` in `sanitize_filename`. -/
def invalidFileChar (c : Char) : Bool :=
  c = '\\' || c = '/' || c = '*' || c = '?' || c = ':' || c = '"' ||
  c = '<' || c = '>' || c = '|' || c.toNat ≤ 0x1f

/-- The reserved device names `sanitize_filename` guards against. -/
def reservedNames : List PyStr :=
  [pys "CON", pys "PRN", pys "AUX", pys "NUL",
   pys "COM1", pys "COM2", pys "COM3", pys "COM4", pys "COM5",
   pys "COM6", pys "COM7", pys "COM8", pys "COM9",
   pys "LPT1", pys "LPT2", pys "LPT3", pys "LPT4", pys "LPT5",
   pys "LPT6", pys "LPT7", pys "LPT8", pys "LPT9"]

/-- `if path.endswith('/') and len(path) > 1: path = path[:-1]` of
`sanitize_filename`. -/
def dropTrailingSlash (p : PyStr) : PyStr :=
  if p.getLast? = some '/' ∧ p.length > 1 then p.dropLast else p

/-- The `re.sub` replacing invalid characters with `_`, followed by the
(no-op, since the regex already covers `/`) `replace('/', '_')`. -/
def replaceInvalid (p : PyStr) : PyStr :=
  (p.map (fun c => if invalidFileChar c then '_' else c)).map
    (fun c => if c = '/' then '_' else c)

/-- `safe_name.strip('._')`. -/
def stripDotUnd (p : PyStr) : PyStr :=
  stripWith (fun c => c = '.' || c = '_') p

/-- The truncation step of `sanitize_filename`: over 200 characters, cut at
the last underscore before position 200 when there is one, else at 200. -/
def truncate200 (p : PyStr) : PyStr :=
  if p.length > 200 then
    match rfindIn p '_' 200 with
    | some cut => p.take cut
    | none => p.take 200
  else p

/-- The trailing-slash normalisation, character replacement, strip and
truncation pipeline of `sanitize_filename`, applied to `netloc + path`. -/
def mkSafeName (p : PyStr) : PyStr :=
  truncate200 (stripDotUnd (replaceInvalid (dropTrailingSlash p)))

/-- `sanitize_filename(url)` from `sitemap_crawler.py`: `"invalid_url"` for a
falsy (empty) URL; otherwise parse the URL (`urlparse` may raise), build a
safe name from `netloc + path`, fall back to
`f"sanitized_url_{abs(hash(url))}"` when the name is empty or reserved, and
append `".log"`. -/
def sanitize_filename (url : PyStr) : Except Unit PyStr :=
  if url = [] then .ok (pys "invalid_url")
  else
    match urlparse url [] with
    | .error e => .error e
    | .ok r =>
      let safe := mkSafeName (r.netloc ++ r.path)
      if safe = [] ∨ pyUpper safe ∈ reservedNames then
        .ok (pys "sanitized_url_" ++ natToDec (pyHash url) ++ pys ".log")
      else .ok (safe ++ pys ".log")

/-- Python `s.endswith(p)`, used to state the `.log`-suffix claims. -/
def pyEndsWith (s p : PyStr) : Bool := List.isPrefixOf p.reverse s.reverse

/-! ## The model of `get_all_page_urls` -/

/-- What the XML collaborator yields for one fetched sitemap document: the
root element's local name together with the `loc` texts extracted by the
XPath queries.  Anything else about the tree is irrelevant to the source. -/
inductive SitemapDoc where
  /-- Root local name `sitemapindex`, with the child sitemap `loc` texts. -/
  | sitemapindex (locs : List PyStr)
  /-- Root local name `urlset`, with the page `loc` texts. -/
  | urlset (locs : List PyStr)
  /-- Any other root tag (the `else` branch logs a warning). -/
  | otherTag
deriving DecidableEq, Inhabited

/-- Outcome of `requests.get` plus `etree.fromstring` for one sitemap URL. -/
inductive FetchOutcome where
  /-- `requests.exceptions.RequestException`, including the `HTTPError`
  raised by `raise_for_status()` on a non-2xx response. -/
  | fetchError
  /-- A 2xx response whose body is empty (`if not content`). -/
  | emptyContent
  /-- `etree.XMLSyntaxError`, or tolerant recovery yielding `root is None`. -/
  | parseError
  /-- A parsed document. -/
  | doc (d : SitemapDoc)
deriving DecidableEq, Inhabited

/-- The ambient network and XML collaborators: a finite association list from
sitemap URL to outcome.  A URL with no entry behaves like a network error
(`requests.get` raises). -/
abbrev Net := List (PyStr × FetchOutcome)

/-- Look up the outcome the network holds for a URL (first match). -/
def netLookup : Net → PyStr → Option FetchOutcome
  | [], _ => none
  | (k, v) :: rest, u => if u = k then some v else netLookup rest u

/-- The `urlset` branch of `get_all_page_urls`: strip each `loc` text and
keep exactly those that start with `http://` or `https://`. -/
def validPages (locs : List PyStr) : List PyStr :=
  (locs.map pyStrip).filter
    (fun t => pyStartsWith t (pys "http://") || pyStartsWith t (pys "https://"))

/-- Number of network keys not yet in the visited list: the measure that
makes the recursion of `get_all_page_urls` terminate. -/
def unvisitedCount (net : Net) (vis : List PyStr) : Nat :=
  ((net.map Prod.fst).filter (fun k => decide (k ∉ vis))).length

/-- Growing the visited list cannot increase the measure (part of the
well-foundedness argument for `resolveSitemap`). -/
def unvisitedCount_mono (net : Net) {vis vis' : List PyStr}
    (h : ∀ x, x ∈ vis → x ∈ vis') :
    unvisitedCount net vis' ≤ unvisitedCount net vis := by
  apply List.Sublist.length_le
  apply List.monotone_filter_right
  intro a ha
  simp only [decide_eq_true_eq] at ha ⊢
  exact fun hmem => ha (h a hmem)

/-- Visiting a fresh network key strictly decreases the measure (part of
the well-foundedness argument for `resolveSitemap`). -/
def unvisitedCount_lt (net : Net) {u : PyStr} {vis : List PyStr}
    (hu : u ∈ net.map Prod.fst) (hnv : u ∉ vis) :
    unvisitedCount net (u :: vis) < unvisitedCount net vis := by
  have hsub : ((net.map Prod.fst).filter (fun k => decide (k ∉ u :: vis))).Sublist
      ((net.map Prod.fst).filter (fun k => decide (k ∉ vis))) := by
    apply List.monotone_filter_right
    intro a ha
    simp only [decide_eq_true_eq, List.mem_cons] at ha ⊢
    exact fun hmem => ha (Or.inr hmem)
  rcases Nat.lt_or_ge
      ((List.filter (fun k => decide (k ∉ u :: vis)) (net.map Prod.fst)).length)
      ((List.filter (fun k => decide (k ∉ vis)) (net.map Prod.fst)).length) with hlt | hge
  · exact hlt
  · exfalso
    have heq := hsub.eq_of_length (Nat.le_antisymm hsub.length_le hge)
    have hmem1 : u ∈ (net.map Prod.fst).filter (fun k => decide (k ∉ vis)) := by
      simp only [List.mem_filter, decide_eq_true_eq]
      exact ⟨hu, hnv⟩
    rw [← heq] at hmem1
    simp only [List.mem_filter, decide_eq_true_eq] at hmem1
    exact hmem1.2 (List.mem_cons_self u vis)

/-- A successful lookup means the URL is one of the network keys (part of
the well-foundedness argument for `resolveSitemap`). -/
def netLookup_mem : ∀ {net : Net} {u : PyStr} {v : FetchOutcome},
    netLookup net u = some v → u ∈ net.map Prod.fst
  | [], _, _, h => by simp [netLookup] at h
  | (k, w) :: rest, u, v, h => by
    rw [netLookup] at h
    by_cases hk : u = k
    · simp [hk]
    · simp only [hk, if_false] at h
      exact List.mem_cons_of_mem _ (netLookup_mem h)

mutual

/-- `get_all_page_urls(sitemap_url, visited_sitemaps)`: the result is the
pair of the page URLs collected (the `page_urls` set, as a list with set
semantics by membership) and the list of sitemap URLs this call newly added
to `visited_sitemaps` — each such addition is immediately followed by the
single `requests.get` for that URL, so the second component is exactly the
fetch trace.  Already-visited URLs return empty without fetching; a fetch,
parse or unknown-root outcome contributes nothing; a `urlset` contributes
its valid page URLs; a `sitemapindex` recurses over its children. -/
def resolveSitemap (net : Net) (u : PyStr) (vis : List PyStr) :
    List PyStr × List PyStr :=
  if hv : u ∈ vis then ([], [])
  else
    match hl : netLookup net u with
    | some (.doc (.sitemapindex locs)) =>
      let r := resolveChildren net u locs (u :: vis)
      (r.1, r.2 ++ [u])
    | some (.doc (.urlset locs)) => (validPages locs, [u])
    | some (.doc .otherTag) => ([], [u])
    | some .fetchError => ([], [u])
    | some .emptyContent => ([], [u])
    | some .parseError => ([], [u])
    | none => ([], [u])
termination_by (unvisitedCount net vis, 0)
decreasing_by
  exact Prod.Lex.left _ _ (unvisitedCount_lt net (netLookup_mem hl) hv)

/-- The `for sub_sitemap_url in sitemaps:` loop of the `sitemapindex`
branch: each `loc` is stripped and resolved with `urljoin` against the
containing document's URL, then recursed into, sharing the visited set.
When `urljoin` raises (its `ValueError` on an unmatched bracket), the
exception is caught by the `except Exception` of the enclosing call, so the
remaining children are abandoned. -/
def resolveChildren (net : Net) (base : PyStr) (locs : List PyStr)
    (vis : List PyStr) : List PyStr × List PyStr :=
  match locs with
  | [] => ([], [])
  | loc :: rest =>
    match urljoin base (pyStrip loc) with
    | .error _ => ([], [])
    | .ok child =>
      let r1 := resolveSitemap net child vis
      let r2 := resolveChildren net base rest (r1.2 ++ vis)
      (r1.1 ++ r2.1, r2.2 ++ r1.2)
termination_by (unvisitedCount net vis, locs.length + 1)
decreasing_by
  · exact Prod.Lex.right _ (Nat.succ_pos _)
  · have hle : unvisitedCount net (r1.2 ++ vis) ≤ unvisitedCount net vis :=
      unvisitedCount_mono net (fun x hx => List.mem_append_right _ hx)
    rcases lt_or_eq_of_le hle with h | h
    · exact Prod.Lex.left _ _ h
    · rw [h]
      exact Prod.Lex.right _ (by simp only [List.length_cons]; omega)

end

/-- The top-level call `get_all_page_urls(sitemap_url)` (fresh visited set),
keeping only the page-URL set. -/
def get_all_page_urls (net : Net) (sitemap_url : PyStr) : List PyStr :=
  (resolveSitemap net sitemap_url []).1

/-- Invariant tying a resolver result to its environment: the fetch trace is
duplicate-free and disjoint from the incoming visited list, and a page URL
is in the result exactly when some fetched sitemap URL maps to a `urlset`
document whose valid page URLs contain it. -/
def ResolveInv (net : Net) (vis : List PyStr)
    (r : List PyStr × List PyStr) : Prop :=
  r.2.Nodup ∧ (∀ x ∈ r.2, x ∉ vis) ∧
  (∀ p, p ∈ r.1 ↔ ∃ x, x ∈ r.2 ∧ ∃ locs,
      netLookup net x = some (.doc (.urlset locs)) ∧ p ∈ validPages locs)

/-! ## The model of `crawl_and_log_errors`

The browser session is an external collaborator; its behaviour on one URL is
environment data (`UrlEnv`), and the run-level environment (`RunEnv`) fixes
the setup outcomes and the ambient clock.  The function's observable side
effects — files written and the final `driver.quit()` — form an event
trace. -/

/-- One browser console entry as returned by `driver.get_log('browser')`:
a dict whose `message`, `timestamp` and `level` keys may each be absent
(`entry.get` supplies the defaults). -/
structure LogEntry where
  message : Option PyStr
  timestamp : Option Int
  level : Option PyStr
deriving DecidableEq, Inhabited

/-- An exception raised by `driver.get(url)` (or the body of the per-URL
`try`): Selenium's `TimeoutException`, another `WebDriverException` (with
class name and `.msg`), or any other exception (class name and text). -/
inductive PyExc where
  | timeoutExc
  | webdriverExc (ename msg : PyStr)
  | otherExc (ename msg : PyStr)
deriving DecidableEq, Inhabited

/-- The browser collaborator's behaviour on one URL: whether navigation
raises, what `get_log('browser')` yields (`Except.error` is the
`WebDriverException` caught by the inner handler, which degrades to zero
records), and whether opening/writing this URL's artifact succeeds (an
`OSError` is caught and logged when it does not). -/
structure UrlEnv where
  nav : Option PyExc
  getLogResult : Except Unit (List LogEntry)
  writeOk : Bool
deriving Inhabited

/-- The options of `settings.py` consumed by `crawl_and_log_errors`. -/
structure CrawlSettings where
  OUTPUT_DIRECTORY : PyStr
  CREATE_EMPTY_LOG_FILES : Bool
  BROWSER_LOG_LEVEL : PyStr
  FILTER_LOG_MESSAGES : List PyStr
  SELENIUM_PAGE_LOAD_TIMEOUT : Nat
deriving Inhabited

/-- The run-level environment: outcomes of the driver-manager install, the
`webdriver.Chrome` construction, `os.makedirs`, the final `driver.quit()`,
the per-URL browser behaviour, and the ambient clock
(`time.localtime`/`strftime` as an abstract formatter — `none` is the
`ValueError` that degrades to `"Invalid Timestamp"` — and `time.time()*1000`
as the default timestamp). -/
structure RunEnv where
  driverManagerOk : Bool
  driverInitOk : Bool
  makedirsOk : Bool
  quitOk : Bool
  urlEnv : PyStr → UrlEnv
  fmtLocalTime : Int → Option PyStr
  nowMs : Int

/-- An observable side effect of the orchestrator. -/
inductive FsEvent where
  /-- One artifact file opened with mode `w` and written. -/
  | fileWrite (path content : PyStr)
  /-- The `driver.quit()` call of the `finally` block (`ok` records whether
  it raised; either way the exception is caught and only logged). -/
  | quitAttempt (ok : Bool)
deriving DecidableEq, Inhabited

/-- The log records the loop iterates over: the retrieved list, or zero
records when retrieval itself raised `WebDriverException`. -/
def effectiveLogs (ue : UrlEnv) : List LogEntry :=
  match ue.getLogResult with
  | .ok l => l
  | .error _ => []

/-- `filter_list = [str(f).lower() for f in settings.FILTER_LOG_MESSAGES]`,
prepared once before the loop. -/
def lowerFilters (s : CrawlSettings) : List PyStr :=
  s.FILTER_LOG_MESSAGES.map pyLower

/-- `entry.get('message', 'No message content.')`. -/
def entryMessage (e : LogEntry) : PyStr :=
  e.message.getD (pys "No message content.")

/-- The filter test of the loop body:
`filter_list and any(filter_text in message_lower for filter_text in
filter_list)`. -/
def entryMatchesFilter (fl : List PyStr) (e : LogEntry) : Bool :=
  !fl.isEmpty && fl.any (fun ft => pyContains (pyLower (entryMessage e)) ft)

/-- The line `f"[{log_time}] {level} - {message}"` built for a kept
record. -/
def formatEntry (env : RunEnv) (e : LogEntry) : PyStr :=
  let ts := e.timestamp.getD env.nowMs
  let logTime := (env.fmtLocalTime ts).getD (pys "Invalid Timestamp")
  let lvl := e.level.getD (pys "UNKNOWN")
  pys "[" ++ logTime ++ pys "] " ++ lvl ++ pys " - " ++ entryMessage e

/-- The `for entry in logs:` loop: drop records matching a filter, format
and append the rest, in retrieval order. -/
def buildLogLines (fl : List PyStr) (env : RunEnv) : List LogEntry → List PyStr
  | [] => []
  | e :: rest =>
    if entryMatchesFilter fl e then buildLogLines fl env rest
    else formatEntry env e :: buildLogLines fl env rest

/-- `os.path.join` for the POSIX flavour the script runs under. -/
def pathJoin (a b : PyStr) : PyStr :=
  if b.take 1 = pys "/" then b
  else if a = [] then b
  else if a.getLast? = some '/' then a ++ b
  else a ++ '/' :: b

/-- Content written when relevant records were found: the header naming the
URL, a separator line, then each formatted record followed by a blank
line. -/
def contentWithEntries (s : CrawlSettings) (url : PyStr)
    (lines : List PyStr) : PyStr :=
  pys "Console logs (level " ++ s.BROWSER_LOG_LEVEL ++ pys "+) found on: " ++
    url ++ pys "\n" ++ List.replicate 30 '=' ++ pys "\n" ++
    (lines.map (fun l => l ++ pys "\n\n")).flatten

/-- Content written when no relevant records remained (only reached when
`CREATE_EMPTY_LOG_FILES` is true). -/
def contentNoLogs (s : CrawlSettings) (url : PyStr) : PyStr :=
  pys "No relevant console logs (level " ++ s.BROWSER_LOG_LEVEL ++
    pys "+) found on: " ++ url ++ pys "\n"

/-- Content of the artifact recording a navigation timeout. -/
def contentTimeout (s : CrawlSettings) (url : PyStr) : PyStr :=
  pys "Failed to crawl URL due to timeout: " ++ url ++ pys "\n" ++
    pys "Timeout limit: " ++ natToDec s.SELENIUM_PAGE_LOAD_TIMEOUT ++
    pys " seconds\n"

/-- Content of the artifact recording a `WebDriverException`. -/
def contentWebdriverErr (url ename msg : PyStr) : PyStr :=
  pys "Failed to crawl or retrieve logs for URL: " ++ url ++ pys "\n" ++
    pys "Error Type: " ++ ename ++ pys "\n" ++
    pys "Error Message: " ++ msg ++ pys "\n"

/-- Content of the artifact recording any other exception. -/
def contentUnexpectedErr (url ename msg : PyStr) : PyStr :=
  pys "Unexpected error processing URL: " ++ url ++ pys "\n" ++
    pys "Error Type: " ++ ename ++ pys "\n" ++
    pys "Error: " ++ msg ++ pys "\n"

/-- A `with open(filepath, 'w') ... write` block guarded by
`except OSError`: one write event on success, none (a logged error) on
failure. -/
def writeAttempt (ok : Bool) (path content : PyStr) : List FsEvent :=
  if ok then [.fileWrite path content] else []

/-- One iteration of the crawl loop, lines 248-339 of the source.  The
filename is derived by `sanitize_filename(url)` before the per-URL `try`
block starts, so a `ValueError` raised there escapes the iteration — this is
the `Except.error` case.  Inside the `try`, every failure is caught: a
navigation timeout, another `WebDriverException` and any other exception
each write a dedicated artifact for this URL; otherwise the retrieved
records are filtered and formatted, and the artifact is written or skipped
according to `CREATE_EMPTY_LOG_FILES`. -/
def processUrl (s : CrawlSettings) (env : RunEnv) (url : PyStr) :
    Except Unit (List FsEvent) :=
  match sanitize_filename url with
  | .error e => .error e
  | .ok filename =>
    let filepath := pathJoin s.OUTPUT_DIRECTORY filename
    let ue := env.urlEnv url
    .ok (match ue.nav with
      | some .timeoutExc => writeAttempt ue.writeOk filepath (contentTimeout s url)
      | some (.webdriverExc n m) =>
        writeAttempt ue.writeOk filepath (contentWebdriverErr url n m)
      | some (.otherExc n m) =>
        writeAttempt ue.writeOk filepath (contentUnexpectedErr url n m)
      | none =>
        let lines := buildLogLines (lowerFilters s) env (effectiveLogs ue)
        if lines.isEmpty && !s.CREATE_EMPTY_LOG_FILES then []
        else if lines.isEmpty then
          writeAttempt ue.writeOk filepath (contentNoLogs s url)
        else writeAttempt ue.writeOk filepath (contentWithEntries s url lines))

/-- The `for i, url in enumerate(urls_to_crawl, 1):` loop.  An exception
escaping one iteration (only the pre-`try` `sanitize_filename` call can
raise one) aborts the loop: it is caught by the outer
`except Exception` of `crawl_and_log_errors`, so later URLs are never
attempted. -/
def crawlLoop (s : CrawlSettings) (env : RunEnv) : List PyStr → List FsEvent
  | [] => []
  | url :: rest =>
    match processUrl s env url with
    | .ok evs => evs ++ crawlLoop s env rest
    | .error _ => []

/-- `crawl_and_log_errors(urls_to_crawl)`, as an event trace.  An empty URL
list returns before any setup.  A driver-manager failure returns before the
driver exists; a `webdriver.Chrome` failure is caught by the outer handler
with the driver still `None` — in both cases the `finally` block has no
session to quit.  Once the driver exists, every exit path — the `makedirs`
failure's early return, the loop completing, or the loop aborting on an
escaped exception — runs the `finally` block, which attempts
`driver.quit()` exactly once and catches any exception it raises. -/
def crawl_and_log_errors (s : CrawlSettings) (env : RunEnv)
    (urls_to_crawl : List PyStr) : List FsEvent :=
  if urls_to_crawl.isEmpty then []
  else if !env.driverManagerOk then []
  else if !env.driverInitOk then []
  else
    (if !env.makedirsOk then [] else crawlLoop s env urls_to_crawl) ++
      [.quitAttempt env.quitOk]

/-- Count of `driver.quit()` attempts in a trace. -/
def quitCount (evs : List FsEvent) : Nat :=
  (evs.filter (fun e => match e with
    | .quitAttempt _ => true
    | _ => false)).length

/-! ## Concrete environments used to witness the claims -/

/-- A sitemap tree with a cycle: the index lists itself and a `urlset`
child. -/
def netC1 : Net :=
  [(pys "http://ex.com/sitemap.xml",
    .doc (.sitemapindex
      [pys "http://ex.com/sitemap.xml", pys "http://ex.com/sub.xml"])),
   (pys "http://ex.com/sub.xml", .doc (.urlset [pys "http://ex.com/p1"]))]

/-- A single `urlset` with one valid entry (whitespace-padded), one relative
entry and one empty entry. -/
def netC2 : Net :=
  [(pys "http://ex2.com/pages.xml",
    .doc (.urlset [pys " https://ex2.com/a ", pys "/relative", pys ""]))]

/-- An index whose first child `loc` makes `urljoin` raise `ValueError`
(unmatched bracket) and whose second child is a healthy `urlset`. -/
def netC3 : Net :=
  [(pys "http://c3.com/idx.xml",
    .doc (.sitemapindex [pys "http://[", pys "http://c3.com/u.xml"])),
   (pys "http://c3.com/u.xml", .doc (.urlset [pys "http://c3.com/page1"]))]

/-- An index whose only child `loc` is relative with padding, resolving to
an absolute sub-sitemap URL. -/
def netC3w : Net :=
  [(pys "http://c3w.com/idx.xml", .doc (.sitemapindex [pys " sub.xml "])),
   (pys "http://c3w.com/sub.xml",
    .doc (.urlset [pys "http://c3w.com/p"]))]

/-- An index with a failing child and a healthy sibling. -/
def netC8 : Net :=
  [(pys "http://c8.com/idx.xml",
    .doc (.sitemapindex
      [pys "http://c8.com/bad.xml", pys "http://c8.com/good.xml"])),
   (pys "http://c8.com/bad.xml", .fetchError),
   (pys "http://c8.com/good.xml", .doc (.urlset [pys "http://c8.com/p"]))]

/-- The `settings.py` defaults (with one filter entry installed, as the
commented example in `settings.py` suggests). -/
def settingsA : CrawlSettings :=
  { OUTPUT_DIRECTORY := pys "console_errors"
    CREATE_EMPTY_LOG_FILES := false
    BROWSER_LOG_LEVEL := pys "SEVERE"
    FILTER_LOG_MESSAGES := [pys "FavIcon.ico"]
    SELENIUM_PAGE_LOAD_TIMEOUT := 60 }

/-- The `settings.py` defaults with `CREATE_EMPTY_LOG_FILES = True`. -/
def settingsB : CrawlSettings :=
  { OUTPUT_DIRECTORY := pys "console_errors"
    CREATE_EMPTY_LOG_FILES := true
    BROWSER_LOG_LEVEL := pys "SEVERE"
    FILTER_LOG_MESSAGES := []
    SELENIUM_PAGE_LOAD_TIMEOUT := 60 }

/-- A healthy run environment: setup succeeds, every navigation succeeds
with no console records, writes and the final quit succeed. -/
def envQuiet : RunEnv :=
  { driverManagerOk := true
    driverInitOk := true
    makedirsOk := true
    quitOk := true
    urlEnv := fun _ => { nav := none, getLogResult := .ok [], writeOk := true }
    fmtLocalTime := fun _ => some (pys "2024-07-22 10:00:00")
    nowMs := 1721642400000 }

/-- A console record whose message contains the configured filter substring
(in different case). -/
def entryFiltered : LogEntry :=
  { message := some (pys "GET https://x/favicon.ico 404 (Not Found)")
    timestamp := some 1721642400123
    level := some (pys "SEVERE") }

/-- A console record that matches no filter. -/
def entryKept : LogEntry :=
  { message := some (pys "Uncaught TypeError: boom")
    timestamp := some 1721642400456
    level := some (pys "SEVERE") }

/-! ## The claims -/

/-! ### Step equations of the resolver -/

theorem resolveSitemap_visited (net : Net) (u : PyStr) (vis : List PyStr)
    (hv : u ∈ vis) : resolveSitemap net u vis = ([], []) := by
  rw [resolveSitemap.eq_def]
  simp [hv]

theorem resolveSitemap_index (net : Net) (u : PyStr) (vis locs : List PyStr)
    (hv : u ∉ vis)
    (hl : netLookup net u = some (.doc (.sitemapindex locs))) :
    resolveSitemap net u vis =
      ((resolveChildren net u locs (u :: vis)).1,
       (resolveChildren net u locs (u :: vis)).2 ++ [u]) := by
  rw [resolveSitemap.eq_def, dif_neg hv, hl]

theorem resolveSitemap_urlset (net : Net) (u : PyStr) (vis locs : List PyStr)
    (hv : u ∉ vis)
    (hl : netLookup net u = some (.doc (.urlset locs))) :
    resolveSitemap net u vis = (validPages locs, [u]) := by
  rw [resolveSitemap.eq_def, dif_neg hv, hl]

/-- Any outcome other than a parsed index or urlset — an unknown URL, a
transport failure, an empty body, a parse failure, an unknown root tag —
leaves the branch with no page URLs, after the one fetch attempt. -/
theorem resolveSitemap_stuck (net : Net) (u : PyStr) (vis : List PyStr)
    (hv : u ∉ vis)
    (hl : netLookup net u = none ∨ netLookup net u = some .fetchError ∨
      netLookup net u = some .emptyContent ∨
      netLookup net u = some .parseError ∨
      netLookup net u = some (.doc .otherTag)) :
    resolveSitemap net u vis = ([], [u]) := by
  rcases hl with hl | hl | hl | hl | hl <;>
    rw [resolveSitemap.eq_def, dif_neg hv, hl]

theorem resolveChildren_nil (net : Net) (base : PyStr) (vis : List PyStr) :
    resolveChildren net base [] vis = ([], []) := by
  rw [resolveChildren.eq_def]

/-- A child `loc` whose `urljoin` raises ends the children loop: the
exception propagates to the `except Exception` handler of the enclosing
`get_all_page_urls` call, which returns the page URLs accumulated so far. -/
theorem resolveChildren_raise (net : Net) (base loc : PyStr)
    (rest vis : List PyStr) (e : Unit)
    (hj : urljoin base (pyStrip loc) = .error e) :
    resolveChildren net base (loc :: rest) vis = ([], []) := by
  rw [resolveChildren.eq_def]
  dsimp only
  rw [hj]

theorem resolveChildren_cons (net : Net) (base loc : PyStr)
    (rest vis : List PyStr) (child : PyStr)
    (hj : urljoin base (pyStrip loc) = .ok child) :
    resolveChildren net base (loc :: rest) vis =
      ((resolveSitemap net child vis).1 ++
        (resolveChildren net base rest
          ((resolveSitemap net child vis).2 ++ vis)).1,
       (resolveChildren net base rest
          ((resolveSitemap net child vis).2 ++ vis)).2 ++
        (resolveSitemap net child vis).2) := by
  rw [resolveChildren.eq_def]
  dsimp only
  rw [hj]

/-! ### The resolver invariant -/

theorem resolveInv_single_no_urlset (net : Net) (u : PyStr)
    (vis : List PyStr) (hv : u ∉ vis)
    (hno : ∀ locs, netLookup net u ≠ some (.doc (.urlset locs))) :
    ResolveInv net vis (([] : List PyStr), [u]) := by
  refine ⟨List.nodup_singleton u, ?_, ?_⟩
  · intro x hx
    rcases List.mem_singleton.1 hx with rfl
    exact hv
  · intro p
    simp only [List.not_mem_nil, false_iff]
    rintro ⟨x, hx, locs, hll, -⟩
    rcases List.mem_singleton.1 hx with rfl
    exact hno locs hll

theorem resolveChildren_inv (net : Net) (n : Nat)
    (HS : ∀ u vis, unvisitedCount net vis ≤ n →
      ResolveInv net vis (resolveSitemap net u vis)) :
    ∀ locs base vis, unvisitedCount net vis ≤ n →
      ResolveInv net vis (resolveChildren net base locs vis) := by
  intro locs
  induction locs with
  | nil =>
    intro base vis hn
    rw [resolveChildren_nil]
    exact ⟨List.nodup_nil, by simp, by simp⟩
  | cons loc rest ih =>
    intro base vis hn
    cases hj : urljoin base (pyStrip loc) with
    | error e =>
      rw [resolveChildren_raise net base loc rest vis e hj]
      exact ⟨List.nodup_nil, by simp, by simp⟩
    | ok child =>
      rw [resolveChildren_cons net base loc rest vis child hj]
      obtain ⟨hnd1, hfresh1, hiff1⟩ := HS child vis hn
      have hmono : unvisitedCount net
          ((resolveSitemap net child vis).2 ++ vis) ≤ n :=
        le_trans
          (unvisitedCount_mono net (fun x hx => List.mem_append_right _ hx)) hn
      obtain ⟨hnd2, hfresh2, hiff2⟩ :=
        ih base ((resolveSitemap net child vis).2 ++ vis) hmono
      refine ⟨?_, ?_, ?_⟩
      · refine hnd2.append hnd1 ?_
        intro x hx2 hx1
        exact hfresh2 x hx2 (List.mem_append_left _ hx1)
      · intro x hx
        rcases List.mem_append.1 hx with hx2 | hx1
        · exact fun hmem => hfresh2 x hx2 (List.mem_append_right _ hmem)
        · exact hfresh1 x hx1
      · intro p
        rw [List.mem_append]
        constructor
        · rintro (hp | hp)
          · obtain ⟨x, hx, locs', hll, hpp⟩ := (hiff1 p).1 hp
            exact ⟨x, List.mem_append_right _ hx, locs', hll, hpp⟩
          · obtain ⟨x, hx, locs', hll, hpp⟩ := (hiff2 p).1 hp
            exact ⟨x, List.mem_append_left _ hx, locs', hll, hpp⟩
        · rintro ⟨x, hx, locs', hll, hpp⟩
          rcases List.mem_append.1 hx with hx2 | hx1
          · exact Or.inr ((hiff2 p).2 ⟨x, hx2, locs', hll, hpp⟩)
          · exact Or.inl ((hiff1 p).2 ⟨x, hx1, locs', hll, hpp⟩)

theorem resolveSitemap_inv_aux (net : Net) :
    ∀ n u vis, unvisitedCount net vis ≤ n →
      ResolveInv net vis (resolveSitemap net u vis) := by
  intro n
  induction n using Nat.strong_induction_on with
  | _ n IH =>
    intro u vis hn
    by_cases hv : u ∈ vis
    · rw [resolveSitemap_visited net u vis hv]
      exact ⟨List.nodup_nil, by simp, by simp⟩
    cases hl : netLookup net u with
    | none =>
      rw [resolveSitemap_stuck net u vis hv (Or.inl hl)]
      exact resolveInv_single_no_urlset net u vis hv
        (fun locs h => by rw [hl] at h; cases h)
    | some fo =>
      cases fo with
      | fetchError =>
        rw [resolveSitemap_stuck net u vis hv (Or.inr (Or.inl hl))]
        exact resolveInv_single_no_urlset net u vis hv
          (fun locs h => by rw [hl] at h; simp at h)
      | emptyContent =>
        rw [resolveSitemap_stuck net u vis hv (Or.inr (Or.inr (Or.inl hl)))]
        exact resolveInv_single_no_urlset net u vis hv
          (fun locs h => by rw [hl] at h; simp at h)
      | parseError =>
        rw [resolveSitemap_stuck net u vis hv
          (Or.inr (Or.inr (Or.inr (Or.inl hl))))]
        exact resolveInv_single_no_urlset net u vis hv
          (fun locs h => by rw [hl] at h; simp at h)
      | doc d =>
        cases d with
        | otherTag =>
          rw [resolveSitemap_stuck net u vis hv
            (Or.inr (Or.inr (Or.inr (Or.inr hl))))]
          exact resolveInv_single_no_urlset net u vis hv
            (fun locs h => by rw [hl] at h; simp at h)
        | urlset locs =>
          rw [resolveSitemap_urlset net u vis locs hv hl]
          refine ⟨List.nodup_singleton u, ?_, ?_⟩
          · intro x hx
            rcases List.mem_singleton.1 hx with rfl
            exact hv
          · intro p
            constructor
            · intro hp
              exact ⟨u, List.mem_singleton_self u, locs, hl, hp⟩
            · rintro ⟨x, hx, locs', hll, hpp⟩
              rcases List.mem_singleton.1 hx with rfl
              rw [hl] at hll
              simp only [Option.some.injEq, FetchOutcome.doc.injEq,
                SitemapDoc.urlset.injEq] at hll
              rw [hll]
              exact hpp
        | sitemapindex locs =>
          have hlt : unvisitedCount net (u :: vis) < unvisitedCount net vis :=
            unvisitedCount_lt net (netLookup_mem hl) hv
          have hlt2 : unvisitedCount net (u :: vis) < n :=
            lt_of_lt_of_le hlt hn
          have HS : ∀ u' vis',
              unvisitedCount net vis' ≤ unvisitedCount net (u :: vis) →
              ResolveInv net vis' (resolveSitemap net u' vis') :=
            fun u' vis' h => IH (unvisitedCount net (u :: vis)) hlt2 u' vis' h
          obtain ⟨hnd, hfresh, hiff⟩ :=
            resolveChildren_inv net (unvisitedCount net (u :: vis)) HS
              locs u (u :: vis) (le_refl _)
          rw [resolveSitemap_index net u vis locs hv hl]
          refine ⟨?_, ?_, ?_⟩
          · refine hnd.append (List.nodup_singleton u) ?_
            intro x hx hxu
            rcases List.mem_singleton.1 hxu with rfl
            exact hfresh x hx (List.mem_cons_self x vis)
          · intro x hx
            rcases List.mem_append.1 hx with hx1 | hx2
            · exact fun hmem => hfresh x hx1 (List.mem_cons_of_mem _ hmem)
            · rcases List.mem_singleton.1 hx2 with rfl
              exact hv
          · intro p
            constructor
            · intro hp
              obtain ⟨x, hx, locs', hll, hpp⟩ := (hiff p).1 hp
              exact ⟨x, List.mem_append_left _ hx, locs', hll, hpp⟩
            · rintro ⟨x, hx, locs', hll, hpp⟩
              rcases List.mem_append.1 hx with hx1 | hx2
              · exact (hiff p).2 ⟨x, hx1, locs', hll, hpp⟩
              · rcases List.mem_singleton.1 hx2 with rfl
                rw [hl] at hll
                simp at hll

/-- The resolver invariant, at every call. -/
theorem resolveSitemap_invariant (net : Net) (u : PyStr)
    (vis : List PyStr) : ResolveInv net vis (resolveSitemap net u vis) :=
  resolveSitemap_inv_aux net (unvisitedCount net vis) u vis (le_refl _)

/-- Membership in the `urlset` extraction: exactly the stripped `loc` texts
that start with `http://` or `https://`. -/
theorem mem_validPages (locs : List PyStr) (p : PyStr) :
    p ∈ validPages locs ↔
      (∃ loc ∈ locs, pyStrip loc = p) ∧
      (pyStartsWith p (pys "http://") || pyStartsWith p (pys "https://")) := by
  simp [validPages, List.mem_filter, List.mem_map]


/-- C1: for every sitemap tree, including cyclic ones, resolution
terminates — `resolveSitemap` is a total function, whose recursion is
well-founded on the count of unvisited network keys — and (i) a sitemap URL
already in the visited set yields an empty result without a fetch (the
fetch trace is empty), (ii) each distinct sitemap URL is fetched at most
once: the fetch trace of the whole resolution has no duplicates, and
(iii) the returned set is exactly the union of the page URLs collected from
the `urlset` documents among the fetched (reached-without-revisit) sitemap
URLs. -/
theorem claim_C1 (net : Net) (seed : PyStr) :
    (∀ u vis, u ∈ vis → resolveSitemap net u vis = ([], [])) ∧
    (resolveSitemap net seed []).2.Nodup ∧
    (∀ p, p ∈ get_all_page_urls net seed ↔
      ∃ x, x ∈ (resolveSitemap net seed []).2 ∧ ∃ locs,
        netLookup net x = some (.doc (.urlset locs)) ∧
        p ∈ validPages locs) := by
  refine ⟨fun u vis hv => resolveSitemap_visited net u vis hv, ?_, ?_⟩
  · exact (resolveSitemap_invariant net seed []).1
  · exact (resolveSitemap_invariant net seed []).2.2

/-- Witness for C1 on the cyclic `netC1`: the self-referencing index URL,
already visited, yields the empty result with no fetch. -/
theorem claim_C1_witness :
    resolveSitemap netC1 (pys "http://ex.com/sitemap.xml")
      [pys "http://ex.com/sitemap.xml"] = ([], []) :=
  (claim_C1 netC1 (pys "http://ex.com/sitemap.xml")).1
    (pys "http://ex.com/sitemap.xml") [pys "http://ex.com/sitemap.xml"]
    (by decide)

/-- C2: in a `urlset` document the returned set is exactly the stripped
`loc` texts that start with `http://` or `https://` (everything else —
empty, relative, malformed — is only logged), and consequently every member
of any `get_all_page_urls` result starts with `http://` or `https://`. -/
theorem claim_C2 (net : Net) :
    (∀ u vis locs, u ∉ vis →
      netLookup net u = some (.doc (.urlset locs)) →
      ((resolveSitemap net u vis).1 = validPages locs ∧
       ∀ p, p ∈ validPages locs ↔
         (∃ loc ∈ locs, pyStrip loc = p) ∧
         (pyStartsWith p (pys "http://") ||
          pyStartsWith p (pys "https://")))) ∧
    (∀ seed p, p ∈ get_all_page_urls net seed →
      pyStartsWith p (pys "http://") || pyStartsWith p (pys "https://")) := by
  constructor
  · intro u vis locs hv hl
    exact ⟨by rw [resolveSitemap_urlset net u vis locs hv hl],
      fun p => mem_validPages locs p⟩
  · intro seed p hp
    obtain ⟨x, -, locs, -, hpp⟩ :=
      ((resolveSitemap_invariant net seed []).2.2 p).1 hp
    exact ((mem_validPages locs p).1 hpp).2

/-- Witness for C2 on `netC2`: of the three entries, only the padded
absolute one survives, stripped. -/
theorem claim_C2_witness :
    (resolveSitemap netC2 (pys "http://ex2.com/pages.xml") []).1 =
      validPages [pys " https://ex2.com/a ", pys "/relative", pys ""] ∧
    validPages [pys " https://ex2.com/a ", pys "/relative", pys ""] =
      [pys "https://ex2.com/a"] :=
  ⟨((claim_C2 netC2).1 (pys "http://ex2.com/pages.xml") []
      [pys " https://ex2.com/a ", pys "/relative", pys ""]
      (by decide) (by decide)).1,
   by decide⟩

/-- C3 counterexample: in `netC3` the seed index names the healthy child
`http://c3.com/u.xml`, whose own resolution returns `page1`, and the
`urljoin` for that child succeeds — yet the resolution of the index returns
the empty set: the first child's `loc` text makes `urljoin` raise
`ValueError`, which the enclosing `except Exception` catches, abandoning
the remaining children.  So not every child of a `sitemapindex` is recursed
into and unioned. -/
theorem claim_C3_counterexample :
    netLookup netC3 (pys "http://c3.com/idx.xml") =
      some (.doc (.sitemapindex
        [pys "http://[", pys "http://c3.com/u.xml"])) ∧
    urljoin (pys "http://c3.com/idx.xml")
      (pyStrip (pys "http://c3.com/u.xml")) =
      .ok (pys "http://c3.com/u.xml") ∧
    get_all_page_urls netC3 (pys "http://c3.com/u.xml") =
      [pys "http://c3.com/page1"] ∧
    get_all_page_urls netC3 (pys "http://c3.com/idx.xml") = [] := by
  refine ⟨by decide, by decide, ?_, ?_⟩
  · show (resolveSitemap netC3 (pys "http://c3.com/u.xml") []).1 = _
    rw [resolveSitemap_urlset netC3 (pys "http://c3.com/u.xml") []
      [pys "http://c3.com/page1"] (by simp) (by decide)]
    decide
  · show (resolveSitemap netC3 (pys "http://c3.com/idx.xml") []).1 = _
    rw [resolveSitemap_index netC3 (pys "http://c3.com/idx.xml") []
      [pys "http://[", pys "http://c3.com/u.xml"] (by simp) (by decide)]
    rw [resolveChildren_raise netC3 (pys "http://c3.com/idx.xml")
      (pys "http://[") [pys "http://c3.com/u.xml"]
      [pys "http://c3.com/idx.xml"] () (by decide)]

/-- C3 amended: in a `sitemapindex` document each child `loc` is stripped
and resolved to an absolute URL with `urljoin` against the containing
document's URL before the resolver recurses into it, and the results of the
recursive calls are unioned — provided each `urljoin` call returns; a child
whose `urljoin` raises (`ValueError`, e.g. on an unmatched bracket) ends
the processing of that node's remaining children, the exception being
caught at node level with the URLs collected so far kept. -/
theorem claim_C3_amended (net : Net) (base : PyStr) (vis : List PyStr) :
    (∀ u locs, u ∉ vis →
      netLookup net u = some (.doc (.sitemapindex locs)) →
      resolveSitemap net u vis =
        ((resolveChildren net u locs (u :: vis)).1,
         (resolveChildren net u locs (u :: vis)).2 ++ [u])) ∧
    (∀ loc rest child, urljoin base (pyStrip loc) = .ok child →
      resolveChildren net base (loc :: rest) vis =
        ((resolveSitemap net child vis).1 ++
          (resolveChildren net base rest
            ((resolveSitemap net child vis).2 ++ vis)).1,
         (resolveChildren net base rest
            ((resolveSitemap net child vis).2 ++ vis)).2 ++
          (resolveSitemap net child vis).2)) ∧
    (∀ loc rest e, urljoin base (pyStrip loc) = .error e →
      resolveChildren net base (loc :: rest) vis = ([], [])) :=
  ⟨fun u locs hv hl => resolveSitemap_index net u vis locs hv hl,
   fun loc rest child hj => resolveChildren_cons net base loc rest vis child hj,
   fun loc rest e hj => resolveChildren_raise net base loc rest vis e hj⟩

/-- Witness for the amended C3 on `netC3w`: the padded relative child
`" sub.xml "` is stripped and resolved against the index URL to the
absolute `http://c3w.com/sub.xml` before recursion. -/
theorem claim_C3_amended_witness :
    resolveChildren netC3w (pys "http://c3w.com/idx.xml") [pys " sub.xml "]
      [pys "http://c3w.com/idx.xml"] =
      ((resolveSitemap netC3w (pys "http://c3w.com/sub.xml")
          [pys "http://c3w.com/idx.xml"]).1 ++
        (resolveChildren netC3w (pys "http://c3w.com/idx.xml") []
          ((resolveSitemap netC3w (pys "http://c3w.com/sub.xml")
              [pys "http://c3w.com/idx.xml"]).2 ++
            [pys "http://c3w.com/idx.xml"])).1,
       (resolveChildren netC3w (pys "http://c3w.com/idx.xml") []
          ((resolveSitemap netC3w (pys "http://c3w.com/sub.xml")
              [pys "http://c3w.com/idx.xml"]).2 ++
            [pys "http://c3w.com/idx.xml"])).2 ++
        (resolveSitemap netC3w (pys "http://c3w.com/sub.xml")
          [pys "http://c3w.com/idx.xml"]).2) :=
  (claim_C3_amended netC3w (pys "http://c3w.com/idx.xml")
      [pys "http://c3w.com/idx.xml"]).2.1
    (pys " sub.xml ") [] (pys "http://c3w.com/sub.xml") (by decide)

/-- C8: a fetch failure (non-2xx status, network error and timeout are all
the caught `requests.exceptions.RequestException`; an unknown URL behaves
the same) or a parse failure beyond tolerant recovery makes that node's
branch contribute zero page URLs after its single fetch attempt, and never
aborts the resolution: a sibling list continues exactly as if the failing
node had returned empty, and a failing top-level seed returns the empty
set rather than raising. -/
theorem claim_C8 (net : Net) (u : PyStr)
    (hfail : netLookup net u = none ∨
      netLookup net u = some .fetchError ∨
      netLookup net u = some .parseError) :
    (∀ vis, u ∉ vis → resolveSitemap net u vis = ([], [u])) ∧
    (∀ base loc rest vis, urljoin base (pyStrip loc) = .ok u → u ∉ vis →
      resolveChildren net base (loc :: rest) vis =
        ((resolveChildren net base rest (u :: vis)).1,
         (resolveChildren net base rest (u :: vis)).2 ++ [u])) ∧
    get_all_page_urls net u = [] := by
  have hstuck : ∀ vis, u ∉ vis → resolveSitemap net u vis = ([], [u]) := by
    intro vis hv
    rcases hfail with hl | hl | hl
    · exact resolveSitemap_stuck net u vis hv (Or.inl hl)
    · exact resolveSitemap_stuck net u vis hv (Or.inr (Or.inl hl))
    · exact resolveSitemap_stuck net u vis hv
        (Or.inr (Or.inr (Or.inr (Or.inl hl))))
  refine ⟨hstuck, ?_, ?_⟩
  · intro base loc rest vis hj hv
    rw [resolveChildren_cons net base loc rest vis u hj, hstuck vis hv]
    simp
  · show (resolveSitemap net u []).1 = []
    rw [hstuck [] (by simp)]

/-- Witness for C8 on `netC8`: the failing child contributes zero URLs
from inside the index's children list. -/
theorem claim_C8_witness :
    resolveSitemap netC8 (pys "http://c8.com/bad.xml")
      [pys "http://c8.com/idx.xml"] =
      ([], [pys "http://c8.com/bad.xml"]) :=
  (claim_C8 netC8 (pys "http://c8.com/bad.xml")
      (Or.inr (Or.inl (by decide)))).1
    [pys "http://c8.com/idx.xml"] (by decide)

/-! ### Facts about `sanitize_filename` -/

theorem pyHash_lt (s : PyStr) : pyHash s < 10 ^ 18 := by
  unfold pyHash
  suffices h : ∀ (l : List Char) (a : Nat), a < 10 ^ 18 →
      List.foldl (fun h c => (h * 1000003 + c.toNat) % 10 ^ 18) a l <
        10 ^ 18 by
    exact h s 5381 (by norm_num)
  intro l
  induction l with
  | nil => intro a ha; exact ha
  | cons x xs ih =>
    intro a ha
    exact ih _ (Nat.mod_lt _ (by norm_num))

theorem natToDecAux_length : ∀ (fuel n k : Nat), n < 10 ^ k → 1 ≤ k →
    (natToDecAux fuel n).length ≤ k := by
  intro fuel
  induction fuel with
  | zero => intro n k _ _; simp [natToDecAux]
  | succ fuel ih =>
    intro n k hn hk
    unfold natToDecAux
    by_cases h : n < 10
    · simp only [h, if_true, List.length_cons, List.length_nil]
      omega
    · simp only [h, if_false, List.length_append, List.length_cons,
        List.length_nil]
      have hk2 : 2 ≤ k := by
        rcases Nat.lt_or_ge k 2 with hk1 | hk1
        · have hk1' : k = 1 := by omega
          subst hk1'
          simp only [pow_one] at hn
          omega
        · exact hk1
      have hdiv : n / 10 < 10 ^ (k - 1) := by
        rw [Nat.div_lt_iff_lt_mul (by norm_num)]
        calc n < 10 ^ k := hn
          _ = 10 ^ (k - 1) * 10 := by
            rw [← pow_succ]
            congr 1
            omega
      have := ih (n / 10) (k - 1) hdiv (by omega)
      omega

theorem digitChar_not_invalid :
    ∀ m : Nat, m < 10 → invalidFileChar (Nat.digitChar m) = false := by
  decide

theorem natToDecAux_chars : ∀ (fuel n : Nat) (c : Char),
    c ∈ natToDecAux fuel n → invalidFileChar c = false := by
  intro fuel
  induction fuel with
  | zero => intro n c hc; simp [natToDecAux] at hc
  | succ fuel ih =>
    intro n c hc
    unfold natToDecAux at hc
    by_cases h : n < 10
    · simp only [h, if_true, List.mem_singleton] at hc
      subst hc
      exact digitChar_not_invalid n h
    · simp only [h, if_false, List.mem_append, List.mem_singleton] at hc
      rcases hc with hc | hc
      · exact ih _ _ hc
      · subst hc
        exact digitChar_not_invalid _ (Nat.mod_lt _ (by norm_num))

theorem rfindIn_le {p : PyStr} {c : Char} {bound cut : Nat}
    (h : rfindIn p c bound = some cut) : cut ≤ bound := by
  unfold rfindIn at h
  cases hfi : (p.take bound).reverse.findIdx? (fun a => a = c) with
  | none => rw [hfi] at h; cases h
  | some i =>
    rw [hfi] at h
    injection h with h
    have hlen : (p.take bound).length ≤ bound := by
      rw [List.length_take]
      omega
    omega

theorem truncate200_length (p : PyStr) : (truncate200 p).length ≤ 200 := by
  unfold truncate200
  by_cases h : p.length > 200
  · simp only [h, if_true]
    cases hf : rfindIn p '_' 200 with
    | none =>
      rw [List.length_take]
      omega
    | some cut =>
      have := rfindIn_le hf
      rw [List.length_take]
      omega
  · simp only [h, if_false]
    omega

theorem replaceInvalid_chars (p : PyStr) :
    ∀ c ∈ replaceInvalid p, invalidFileChar c = false := by
  intro c hc
  unfold replaceInvalid at hc
  rw [List.map_map, List.mem_map] at hc
  obtain ⟨a, ha, rfl⟩ := hc
  show invalidFileChar
    (if (if invalidFileChar a then '_' else a) = '/' then '_'
     else if invalidFileChar a then '_' else a) = false
  by_cases h1 : invalidFileChar a = true
  · rw [if_pos h1]
    decide
  · rw [if_neg h1]
    have ha2 : a ≠ '/' := by
      intro hh
      rw [hh] at h1
      exact h1 (by decide)
    rw [if_neg ha2]
    simp only [Bool.not_eq_true] at h1
    exact h1

theorem mem_stripWith {pr : Char → Bool} {s : PyStr} {c : Char}
    (h : c ∈ stripWith pr s) : c ∈ s := by
  unfold stripWith at h
  rw [List.mem_reverse] at h
  have h1 := (List.dropWhile_sublist pr).subset h
  rw [List.mem_reverse] at h1
  exact (List.dropWhile_sublist pr).subset h1

theorem mkSafeName_chars (p : PyStr) :
    ∀ c ∈ mkSafeName p, invalidFileChar c = false := by
  intro c hc
  apply replaceInvalid_chars (dropTrailingSlash p)
  unfold mkSafeName truncate200 at hc
  have base : c ∈ stripDotUnd (replaceInvalid (dropTrailingSlash p)) →
      c ∈ replaceInvalid (dropTrailingSlash p) :=
    fun h => mem_stripWith h
  by_cases h : (stripDotUnd (replaceInvalid (dropTrailingSlash p))).length > 200
  · simp only [h, if_true] at hc
    cases hf :
        rfindIn (stripDotUnd (replaceInvalid (dropTrailingSlash p))) '_' 200 with
    | none =>
      rw [hf] at hc
      exact base (List.take_subset _ _ hc)
    | some cut =>
      rw [hf] at hc
      exact base (List.take_subset _ _ hc)
  · simp only [h, if_false] at hc
    exact base hc

theorem mkSafeName_length (p : PyStr) : (mkSafeName p).length ≤ 200 :=
  truncate200_length _

theorem stripWith_append_true {pr : Char → Bool} (s : PyStr) {c : Char}
    (hc : pr c = true) : stripWith pr (s ++ [c]) = stripWith pr s := by
  unfold stripWith
  rw [List.dropWhile_append]
  by_cases hd : (s.dropWhile pr).isEmpty = true
  · rw [if_pos hd]
    rw [List.isEmpty_iff] at hd
    rw [hd]
    simp [List.dropWhile, hc]
  · rw [if_neg hd]
    rw [List.reverse_append]
    simp [List.dropWhile, hc]

theorem pyEndsWith_append (x p : PyStr) : pyEndsWith (x ++ p) p = true := by
  unfold pyEndsWith
  rw [List.reverse_append]
  rw [List.isPrefixOf_iff_prefix]
  exact List.prefix_append _ _

theorem mkSafeName_append_slash (p : PyStr) (hp : p ≠ []) :
    mkSafeName (p ++ ['/']) = mkSafeName p := by
  have h1 : dropTrailingSlash (p ++ ['/']) = p := by
    unfold dropTrailingSlash
    rw [if_pos]
    · exact List.dropLast_concat
    · refine ⟨List.getLast?_concat p, ?_⟩
      have := List.length_pos.2 hp
      rw [List.length_append]
      simp only [List.length_cons, List.length_nil]
      omega
  unfold mkSafeName
  rw [h1]
  by_cases h2 : p.getLast? = some '/' ∧ p.length > 1
  · have hpd : dropTrailingSlash p = p.dropLast := by
      unfold dropTrailingSlash
      rw [if_pos h2]
    obtain ⟨g, hg⟩ : ∃ g, p.getLast? = some g := ⟨'/', h2.1⟩
    have hsplit : p.dropLast ++ ['/'] = p := by
      have := List.dropLast_append_getLast? '/' h2.1
      exact this
    rw [hpd]
    rw [← hsplit]
    rw [List.dropLast_concat]
    have h3 : replaceInvalid (p.dropLast ++ ['/']) =
        replaceInvalid p.dropLast ++ ['_'] := by
      unfold replaceInvalid
      rw [List.map_append, List.map_append]
      congr 1
    rw [h3]
    unfold stripDotUnd
    rw [stripWith_append_true _ (by decide)]
  · have hpd : dropTrailingSlash p = p := by
      unfold dropTrailingSlash
      rw [if_neg h2]
    rw [hpd]

/-- C4 counterexample: `http://con` and `http://con/` are two distinct URLs
that differ only by a trailing slash on the path, yet they do not map to the
same base name: both sanitize to the reserved device name `con`, so both
fall back to `f"sanitized_url_{abs(hash(url))}"`, and the hash of the full
URL string differs between them. -/
theorem claim_C4_counterexample :
    sanitize_filename (pys "http://con") =
      .ok (pys "sanitized_url_17081098966906621.log") ∧
    sanitize_filename (pys "http://con/") =
      .ok (pys "sanitized_url_150210203521719910.log") ∧
    sanitize_filename (pys "http://con") ≠
      sanitize_filename (pys "http://con/") :=
  ⟨by decide, by decide, by decide⟩

/-- C4 amended: whenever `sanitize_filename` returns a name, the name has at
most 204 characters (at most 200 before `".log"`) and contains none of the
characters `\/*?:"<>|` nor the C0 control characters `\x00`-`\x1f` targeted
by the source's regex; and two URLs that differ only by a trailing slash on
the path map to the same name, provided the sanitized base name is
non-empty and not a reserved device name (otherwise both fall to the
`hash(url)`-based fallback, which depends on the full URL string). -/
theorem claim_C4_amended :
    (∀ url name, sanitize_filename url = .ok name →
      name.length ≤ 204 ∧ ∀ c ∈ name, invalidFileChar c = false) ∧
    (∀ u1 u2 r1 r2, urlparse u1 [] = .ok r1 → urlparse u2 [] = .ok r2 →
      r2.netloc = r1.netloc → r2.path = r1.path ++ ['/'] →
      mkSafeName (r1.netloc ++ r1.path) ≠ [] →
      pyUpper (mkSafeName (r1.netloc ++ r1.path)) ∉ reservedNames →
      sanitize_filename u1 = sanitize_filename u2) := by
  constructor
  · intro url name hs
    unfold sanitize_filename at hs
    by_cases hu : url = []
    · rw [if_pos hu] at hs
      injection hs with hs
      subst hs
      exact ⟨by decide, by decide⟩
    · rw [if_neg hu] at hs
      cases hp : urlparse url [] with
      | error e => rw [hp] at hs; cases hs
      | ok r =>
        rw [hp] at hs
        dsimp only at hs
        by_cases hcond : mkSafeName (r.netloc ++ r.path) = [] ∨
            pyUpper (mkSafeName (r.netloc ++ r.path)) ∈ reservedNames
        · rw [if_pos hcond] at hs
          injection hs with hs
          subst hs
          constructor
          · rw [List.length_append, List.length_append]
            have h18 : (natToDec (pyHash url)).length ≤ 18 := by
              unfold natToDec
              exact natToDecAux_length _ _ 18 (pyHash_lt url) (by norm_num)
            have h14 : (pys "sanitized_url_").length = 14 := by decide
            have h4 : (pys ".log").length = 4 := by decide
            omega
          · intro c hc
            rcases List.mem_append.1 hc with hc | hc
            · rcases List.mem_append.1 hc with hc | hc
              · exact (by decide :
                  ∀ c ∈ pys "sanitized_url_", invalidFileChar c = false) c hc
              · unfold natToDec at hc
                exact natToDecAux_chars _ _ c hc
            · exact (by decide :
                ∀ c ∈ pys ".log", invalidFileChar c = false) c hc
        · rw [if_neg hcond] at hs
          injection hs with hs
          subst hs
          constructor
          · rw [List.length_append]
            have h200 := mkSafeName_length (r.netloc ++ r.path)
            have h4 : (pys ".log").length = 4 := by decide
            omega
          · intro c hc
            rcases List.mem_append.1 hc with hc | hc
            · exact mkSafeName_chars _ c hc
            · exact (by decide :
                ∀ c ∈ pys ".log", invalidFileChar c = false) c hc
  · intro u1 u2 r1 r2 hp1 hp2 hnet hpath hb hres
    have hemp : urlparse [] [] = .ok ⟨[], [], [], [], [], []⟩ := by decide
    have hu1 : u1 ≠ [] := by
      intro h
      subst h
      rw [hemp] at hp1
      injection hp1 with h
      rw [← h] at hb
      exact hb (by decide)
    have hu2 : u2 ≠ [] := by
      intro h
      subst h
      rw [hemp] at hp2
      injection hp2 with h
      rw [← h] at hpath
      simp at hpath
    have hcomb : r1.netloc ++ r1.path ≠ [] := by
      intro h
      rw [h] at hb
      exact hb (by decide)
    unfold sanitize_filename
    rw [if_neg hu1, if_neg hu2, hp1, hp2]
    dsimp only
    have hkey : mkSafeName (r2.netloc ++ r2.path) =
        mkSafeName (r1.netloc ++ r1.path) := by
      rw [hnet, hpath, ← List.append_assoc]
      exact mkSafeName_append_slash _ hcomb
    rw [hkey, if_neg (not_or.mpr ⟨hb, hres⟩), if_neg (not_or.mpr ⟨hb, hres⟩)]

/-- Witness for the amended C4: `http://example.com/page` and
`http://example.com/page/` sanitize to the same (safe, short) name. -/
theorem claim_C4_amended_witness :
    ((pys "example.com_page.log").length ≤ 204 ∧
      ∀ c ∈ pys "example.com_page.log", invalidFileChar c = false) ∧
    sanitize_filename (pys "http://example.com/page") =
      sanitize_filename (pys "http://example.com/page/") :=
  ⟨claim_C4_amended.1 (pys "http://example.com/page")
      (pys "example.com_page.log") (by decide),
   claim_C4_amended.2 (pys "http://example.com/page")
      (pys "http://example.com/page/")
      ⟨pys "http", pys "example.com", pys "/page", [], [], []⟩
      ⟨pys "http", pys "example.com", pys "/page/", [], [], []⟩
      (by decide) (by decide) (by decide) (by decide) (by decide)
      (by decide)⟩

/-- C10 counterexample: `sanitize_filename` is not total — for the
non-empty input `http://[` the `urlparse` call raises `ValueError`
(unmatched bracket in the authority), so no name is returned at all. -/
theorem claim_C10_counterexample :
    pys "http://[" ≠ [] ∧
    sanitize_filename (pys "http://[") = .error () :=
  ⟨by decide, by decide⟩

/-- C10 amended: for the empty URL `sanitize_filename` returns the literal
`"invalid_url"`, which does not carry the `".log"` suffix; and for every
non-empty URL on which the `urlparse` call returns (it raises `ValueError`
for an authority with an unmatched square bracket), the returned name is
non-empty and ends with `".log"` — the `sanitized_url_<hash>` fallback is
used when sanitization yields an empty or reserved name. -/
theorem claim_C10_amended :
    sanitize_filename [] = .ok (pys "invalid_url") ∧
    pyEndsWith (pys "invalid_url") (pys ".log") = false ∧
    (∀ url name, url ≠ [] → sanitize_filename url = .ok name →
      name ≠ [] ∧ pyEndsWith name (pys ".log") = true) := by
  refine ⟨by decide, by decide, ?_⟩
  intro url name hne hs
  unfold sanitize_filename at hs
  rw [if_neg hne] at hs
  cases hp : urlparse url [] with
  | error e => rw [hp] at hs; cases hs
  | ok r =>
    rw [hp] at hs
    dsimp only at hs
    by_cases hcond : mkSafeName (r.netloc ++ r.path) = [] ∨
        pyUpper (mkSafeName (r.netloc ++ r.path)) ∈ reservedNames
    · rw [if_pos hcond] at hs
      injection hs with hs
      subst hs
      constructor
      · intro hcontra
        have hl := congrArg List.length hcontra
        rw [List.length_append, List.length_append] at hl
        simp only [List.length_nil] at hl
        have h4 : (pys ".log").length = 4 := by decide
        omega
      · exact pyEndsWith_append _ _
    · rw [if_neg hcond] at hs
      injection hs with hs
      subst hs
      constructor
      · intro hcontra
        have hl := congrArg List.length hcontra
        rw [List.length_append] at hl
        simp only [List.length_nil] at hl
        have h4 : (pys ".log").length = 4 := by decide
        omega
      · exact pyEndsWith_append _ _

/-- Witness for the amended C10 at `http://a.com/x`. -/
theorem claim_C10_amended_witness :
    pys "a.com_x.log" ≠ [] ∧
    pyEndsWith (pys "a.com_x.log") (pys ".log") = true :=
  claim_C10_amended.2.2 (pys "http://a.com/x") (pys "a.com_x.log")
    (by decide) (by decide)

/-! ### Facts about the crawl loop -/

theorem buildLogLines_cons_skip (fl : List PyStr) (env : RunEnv)
    (e : LogEntry) (rest : List LogEntry)
    (h : entryMatchesFilter fl e = true) :
    buildLogLines fl env (e :: rest) = buildLogLines fl env rest := by
  simp only [buildLogLines]
  rw [if_pos h]

theorem buildLogLines_cons_keep (fl : List PyStr) (env : RunEnv)
    (e : LogEntry) (rest : List LogEntry)
    (h : entryMatchesFilter fl e = false) :
    buildLogLines fl env (e :: rest) =
      formatEntry env e :: buildLogLines fl env rest := by
  simp only [buildLogLines]
  rw [if_neg]
  rw [h]
  exact Bool.false_ne_true

theorem buildLogLines_append (fl : List PyStr) (env : RunEnv)
    (l1 l2 : List LogEntry) :
    buildLogLines fl env (l1 ++ l2) =
      buildLogLines fl env l1 ++ buildLogLines fl env l2 := by
  induction l1 with
  | nil => rfl
  | cons e rest ih =>
    rw [List.cons_append]
    by_cases h : entryMatchesFilter fl e = true
    · rw [buildLogLines_cons_skip fl env e _ h,
        buildLogLines_cons_skip fl env e _ h, ih]
    · simp only [Bool.not_eq_true] at h
      rw [buildLogLines_cons_keep fl env e _ h,
        buildLogLines_cons_keep fl env e _ h, ih, List.cons_append]

theorem entryMatchesFilter_iff (s : CrawlSettings) (e : LogEntry) :
    entryMatchesFilter (lowerFilters s) e = true ↔
      s.FILTER_LOG_MESSAGES ≠ [] ∧ ∃ f ∈ s.FILTER_LOG_MESSAGES,
        pyContains (pyLower (entryMessage e)) (pyLower f) = true := by
  simp [entryMatchesFilter, lowerFilters, List.any_map, Function.comp]

theorem quitCount_writeAttempt (b : Bool) (p c : PyStr) :
    quitCount (writeAttempt b p c) = 0 := by
  unfold writeAttempt
  cases b
  · rfl
  · rfl

theorem processUrl_no_quit (s : CrawlSettings) (env : RunEnv) (url : PyStr)
    (evs : List FsEvent) (h : processUrl s env url = .ok evs) :
    quitCount evs = 0 := by
  unfold processUrl at h
  cases hsan : sanitize_filename url with
  | error e => rw [hsan] at h; cases h
  | ok fn =>
    rw [hsan] at h
    dsimp only at h
    injection h with h
    subst h
    cases (env.urlEnv url).nav with
    | none =>
      dsimp only
      split
      · rfl
      · split
        · exact quitCount_writeAttempt _ _ _
        · exact quitCount_writeAttempt _ _ _
    | some exc =>
      cases exc with
      | timeoutExc => exact quitCount_writeAttempt _ _ _
      | webdriverExc n m => exact quitCount_writeAttempt _ _ _
      | otherExc n m => exact quitCount_writeAttempt _ _ _

theorem crawlLoop_no_quit (s : CrawlSettings) (env : RunEnv) :
    ∀ urls, quitCount (crawlLoop s env urls) = 0 := by
  intro urls
  induction urls with
  | nil => rfl
  | cons url rest ih =>
    unfold crawlLoop
    cases h : processUrl s env url with
    | error e => rfl
    | ok evs =>
      have h1 := processUrl_no_quit s env url evs h
      unfold quitCount at h1 ih ⊢
      rw [List.filter_append, List.length_append]
      omega

/-- The events one iteration contributes when navigation succeeded and every
record fell away: nothing, or the single explanatory artifact, depending on
`CREATE_EMPTY_LOG_FILES`. -/
theorem processUrl_nolines (s : CrawlSettings) (env : RunEnv)
    (url fn : PyStr) (hsan : sanitize_filename url = .ok fn)
    (hnav : (env.urlEnv url).nav = none)
    (hlines : buildLogLines (lowerFilters s) env
      (effectiveLogs (env.urlEnv url)) = []) :
    processUrl s env url =
      .ok (if s.CREATE_EMPTY_LOG_FILES then
        writeAttempt (env.urlEnv url).writeOk
          (pathJoin s.OUTPUT_DIRECTORY fn) (contentNoLogs s url)
      else []) := by
  unfold processUrl
  rw [hsan]
  dsimp only
  rw [hnav]
  dsimp only
  rw [hlines]
  cases hce : s.CREATE_EMPTY_LOG_FILES
  · rfl
  · rfl

theorem crawlLoop_cons_ok (s : CrawlSettings) (env : RunEnv) (url : PyStr)
    (rest : List PyStr) (evs : List FsEvent)
    (h : processUrl s env url = .ok evs) :
    crawlLoop s env (url :: rest) = evs ++ crawlLoop s env rest := by
  simp only [crawlLoop]
  rw [h]

/-- C5: for a crawled URL whose navigation succeeded but whose diagnostic
records all fall away after filtering (zero formatted result lines): with
`CREATE_EMPTY_LOG_FILES = False` no file is written for that URL and the
loop continues with the remaining URLs; with `True`, exactly one file is
written for it, containing the single explanatory
"No relevant console logs" line, and the loop likewise continues. -/
theorem claim_C5 (s : CrawlSettings) (env : RunEnv) (url fn : PyStr)
    (hsan : sanitize_filename url = .ok fn)
    (hnav : (env.urlEnv url).nav = none)
    (hlines : buildLogLines (lowerFilters s) env
      (effectiveLogs (env.urlEnv url)) = []) :
    (s.CREATE_EMPTY_LOG_FILES = false →
      processUrl s env url = .ok [] ∧
      ∀ rest, crawlLoop s env (url :: rest) = crawlLoop s env rest) ∧
    (s.CREATE_EMPTY_LOG_FILES = true → (env.urlEnv url).writeOk = true →
      processUrl s env url =
        .ok [.fileWrite (pathJoin s.OUTPUT_DIRECTORY fn)
          (contentNoLogs s url)] ∧
      ∀ rest, crawlLoop s env (url :: rest) =
        .fileWrite (pathJoin s.OUTPUT_DIRECTORY fn) (contentNoLogs s url) ::
          crawlLoop s env rest) := by
  have hPU := processUrl_nolines s env url fn hsan hnav hlines
  constructor
  · intro hce
    rw [hce] at hPU
    rw [if_neg Bool.false_ne_true] at hPU
    exact ⟨hPU, fun rest => by rw [crawlLoop_cons_ok s env url rest [] hPU,
      List.nil_append]⟩
  · intro hce hw
    rw [hce, hw] at hPU
    rw [if_pos rfl] at hPU
    unfold writeAttempt at hPU
    rw [if_pos rfl] at hPU
    exact ⟨hPU, fun rest => by
      rw [crawlLoop_cons_ok s env url rest _ hPU, List.singleton_append]⟩

/-- Witness for C5 at a URL whose only record is filtered away:
with `settingsA` (no empty artifacts) the iteration writes nothing and the
loop continues. -/
theorem claim_C5_witness :
    processUrl settingsA
      { envQuiet with
        urlEnv := fun _ =>
          { nav := none, getLogResult := .ok [entryFiltered],
            writeOk := true } }
      (pys "http://w5.com/a") = .ok [] :=
  ((claim_C5 settingsA _ (pys "http://w5.com/a") (pys "w5.com_a.log")
      (by decide) rfl (by decide)).1 rfl).1

/-- C6: a record is excluded exactly when some configured filter substring
occurs in its message under case-insensitive comparison; excluding it does
not change which other records of the same URL are kept (nor their order);
and every kept record is formatted as `[local-timestamp] LEVEL - message`
and appended in retrieval order. -/
theorem claim_C6 (s : CrawlSettings) (env : RunEnv) (l1 l2 : List LogEntry)
    (e : LogEntry) :
    (entryMatchesFilter (lowerFilters s) e = true ↔
      s.FILTER_LOG_MESSAGES ≠ [] ∧ ∃ f ∈ s.FILTER_LOG_MESSAGES,
        pyContains (pyLower (entryMessage e)) (pyLower f) = true) ∧
    (entryMatchesFilter (lowerFilters s) e = true →
      buildLogLines (lowerFilters s) env (l1 ++ e :: l2) =
        buildLogLines (lowerFilters s) env (l1 ++ l2)) ∧
    (entryMatchesFilter (lowerFilters s) e = false →
      buildLogLines (lowerFilters s) env (l1 ++ e :: l2) =
        buildLogLines (lowerFilters s) env l1 ++
          formatEntry env e :: buildLogLines (lowerFilters s) env l2) ∧
    formatEntry env e =
      pys "[" ++
        ((env.fmtLocalTime (e.timestamp.getD env.nowMs)).getD
          (pys "Invalid Timestamp")) ++ pys "] " ++
        e.level.getD (pys "UNKNOWN") ++ pys " - " ++ entryMessage e := by
  refine ⟨entryMatchesFilter_iff s e, ?_, ?_, rfl⟩
  · intro h
    rw [buildLogLines_append, buildLogLines_append,
      buildLogLines_cons_skip _ _ _ _ h]
  · intro h
    rw [buildLogLines_append, buildLogLines_cons_keep _ _ _ _ h]

/-- Witness for C6: the favicon record is dropped by the `FavIcon.ico`
filter (case-insensitively) without affecting its kept neighbour. -/
theorem claim_C6_witness :
    buildLogLines (lowerFilters settingsA) envQuiet
      ([entryKept] ++ entryFiltered :: []) =
      buildLogLines (lowerFilters settingsA) envQuiet ([entryKept] ++ []) :=
  (claim_C6 settingsA envQuiet [entryKept] [] entryFiltered).2.1 (by decide)

/-- C7, behaviour of the code at the failing input: the page URL
`http://[` (which the resolver will happily return, since it starts with
`http://`) makes `sanitize_filename` raise `ValueError` at line 251 of
`sitemap_crawler.py` — outside the per-URL `try` that starts at line 254 —
so the exception escapes to the outer handler and the loop is abandoned: in
a run over `["http://[", "http://ok.example/"]` no artifact at all is
written, although the same run over just `["http://ok.example/"]` writes
that URL's artifact.  The failure is not isolated to URL 1 and URL 2 is
never attempted, as the claim says it must be. -/
theorem claim_C7_failing_run :
    crawl_and_log_errors settingsB envQuiet
      [pys "http://[", pys "http://ok.example/"] =
      [.quitAttempt true] ∧
    crawl_and_log_errors settingsB envQuiet [pys "http://ok.example/"] =
      [.fileWrite (pys "console_errors/ok.example.log")
        (contentNoLogs settingsB (pys "http://ok.example/")),
       .quitAttempt true] :=
  ⟨by decide, by decide⟩

/-- C9: whenever the browser session was created (the URL list is
non-empty, the driver-manager install and the `webdriver.Chrome`
construction both succeeded), the run's trace ends with exactly one
`driver.quit()` attempt — on the normal path, on the early `makedirs`
return, and on a loop abandoned by an escaped exception alike; the
`finally` block records the attempt whether or not the quit itself
succeeds (`env.quitOk`), a failure being only logged (the function is
total and returns the same trace shape). -/
theorem claim_C9 (s : CrawlSettings) (env : RunEnv) (urls : List PyStr)
    (hne : urls ≠ []) (hdm : env.driverManagerOk = true)
    (hdi : env.driverInitOk = true) :
    crawl_and_log_errors s env urls =
      (if !env.makedirsOk then [] else crawlLoop s env urls) ++
        [.quitAttempt env.quitOk] ∧
    quitCount (crawl_and_log_errors s env urls) = 1 := by
  have hne' : urls.isEmpty = false := by
    cases urls with
    | nil => exact absurd rfl hne
    | cons a l => rfl
  have h1 : crawl_and_log_errors s env urls =
      (if !env.makedirsOk then [] else crawlLoop s env urls) ++
        [.quitAttempt env.quitOk] := by
    unfold crawl_and_log_errors
    rw [hne', hdm, hdi]
    rfl
  refine ⟨h1, ?_⟩
  rw [h1]
  have hb : quitCount
      (if !env.makedirsOk then [] else crawlLoop s env urls) = 0 := by
    cases env.makedirsOk
    · rfl
    · exact crawlLoop_no_quit s env urls
  unfold quitCount at hb ⊢
  rw [List.filter_append, List.length_append, hb]
  rfl

/-- Witness for C9: a quiet two-URL run quits exactly once. -/
theorem claim_C9_witness :
    quitCount (crawl_and_log_errors settingsA envQuiet
      [pys "http://w9.com/a", pys "http://w9.com/b"]) = 1 :=
  (claim_C9 settingsA envQuiet [pys "http://w9.com/a", pys "http://w9.com/b"]
    (by decide) rfl rfl).2

end Crawler
